import Mathlib

/-!
Verification of the streaming-XML-event-reader example (`examples/quick_xml.rs`).

The repository source is a consumer of the external `quick_xml` streaming
reader: it opens a file, pulls namespaced events in a loop, tracks nesting
depth, and prints tags, attributes, text and XML-declaration fields.  The
reader itself (byte scanner, event classifier, namespace resolver, attribute
cursor, entity decoder, well-formedness tracker) is library code that is not
part of this repository, so those layers are modelled from the specification;
the consumer loop (`parse`, `print_attributes`, `print_text`, the declaration
branch and the `File::open(...).unwrap()` call) is embedded directly from the
source.  The model is character-level: Rust byte slices become `List Char`
and `String`.
-/

/-- Error taxonomy of the reader and consumer, following the specification's
§7 names.  `fuelExhausted` is an artifact of the fuel-based embedding of the
scanning loops and is never reached when the fuel is at least the input
length plus one. -/
inductive XmlError where
  | ioError
  | fuelExhausted
  | unexpectedEof
  | malformedMarkup
  | malformedAttribute
  | mismatchedEndTag
  | unclosedElement
  | duplicateAttribute
  | unknownEntity
  | invalidUtf8
  | missingVersion
deriving DecidableEq, Repr

/-- The double-quote character. -/
def quoteD : Char := Char.ofNat 34

/-- The single-quote (apostrophe) character. -/
def quoteS : Char := Char.ofNat 39

/-- XML whitespace. -/
def isWs (c : Char) : Bool :=
  c = ' ' || c = Char.ofNat 9 || c = Char.ofNat 13 || c = Char.ofNat 10

/-- `lStartsWith pat cs` is true when `pat` is an initial segment of `cs`. -/
def lStartsWith : List Char → List Char → Bool
  | [], _ => true
  | _ :: _, [] => false
  | p :: ps, c :: cs => p == c && lStartsWith ps cs

/-- Split `cs` at the first occurrence of the pattern `pat`, returning the
part strictly before the occurrence and the part strictly after it. -/
def splitAfter (pat : List Char) : List Char → Option (List Char × List Char)
  | [] => if pat.isEmpty then some ([], []) else none
  | c :: cs =>
    if lStartsWith pat (c :: cs) then some ([], (c :: cs).drop pat.length)
    else
      match splitAfter pat cs with
      | some (a, b) => some (c :: a, b)
      | none => none

/-- Modelled from the spec (§4.1, Byte Scanner; missing library code):
consume the body of a start/empty/end tag up to the first `>` that is not
inside a quoted attribute value.  The first argument is the currently open
quote character, if any.  An unescaped `<` inside a quoted value is
`MalformedMarkup`; running out of input is `UnexpectedEof`. -/
def takeTag : Option Char → List Char → Except XmlError (List Char × List Char)
  | _, [] => .error .unexpectedEof
  | none, c :: cs =>
    if c = '>' then .ok ([], cs)
    else if c = quoteD || c = quoteS then
      (fun p => (c :: p.1, p.2)) <$> takeTag (some c) cs
    else
      (fun p => (c :: p.1, p.2)) <$> takeTag none cs
  | some q, c :: cs =>
    if c = q then (fun p => (c :: p.1, p.2)) <$> takeTag none cs
    else if c = '<' then .error .malformedMarkup
    else (fun p => (c :: p.1, p.2)) <$> takeTag (some q) cs

/-- Modelled from the spec (§4.1; missing library code): consume a doctype
body up to the matching `>` accounting for nested `[...]` internal subsets. -/
def takeDoctype : Nat → List Char → Except XmlError (List Char × List Char)
  | _, [] => .error .unexpectedEof
  | d, c :: cs =>
    if c = '[' then (fun p => (c :: p.1, p.2)) <$> takeDoctype (d + 1) cs
    else if c = ']' then (fun p => (c :: p.1, p.2)) <$> takeDoctype (d - 1) cs
    else if c = '>' then
      if d = 0 then .ok ([], cs)
      else (fun p => (c :: p.1, p.2)) <$> takeDoctype d cs
    else (fun p => (c :: p.1, p.2)) <$> takeDoctype d cs

/-- Modelled from the spec (§4.4, Attribute Cursor; missing library code):
parse one `key="value"` pair at the head of `cs`, returning the pair and the
remaining characters.  Mismatched or missing quoting is
`MalformedAttribute`. -/
def parseOneAttr (cs : List Char) : Except XmlError ((String × String) × List Char) :=
  let key := cs.takeWhile (fun c => !(isWs c) && c != '=')
  let rest := (cs.drop key.length).dropWhile isWs
  if key.isEmpty then .error .malformedAttribute
  else
    match rest with
    | '=' :: r2 =>
      match r2.dropWhile isWs with
      | q :: r3 =>
        if q = quoteD || q = quoteS then
          match splitAfter [q] r3 with
          | some (v, r4) => .ok ((String.mk key, String.mk v), r4)
          | none => .error .malformedAttribute
        else .error .malformedAttribute
      | [] => .error .malformedAttribute
    | _ => .error .malformedAttribute

/-- Modelled from the spec (§4.4; missing library code): parse an attribute
byte span into its list of raw `(key, value)` pairs, fuel-bounded. -/
def parseAttrsF : Nat → List Char → Except XmlError (List (String × String))
  | _, [] => .ok []
  | 0, _ :: _ => .error .fuelExhausted
  | f + 1, c :: cs =>
    if isWs c then parseAttrsF f cs
    else
      match parseOneAttr (c :: cs) with
      | .error e => .error e
      | .ok (kv, rest) => (fun l => kv :: l) <$> parseAttrsF f rest

/-- Parse a whole attribute span; one unit of fuel per character suffices
because every step consumes at least one character. -/
def parseAttrsAll (cs : List Char) : Except XmlError (List (String × String)) :=
  parseAttrsF (cs.length + 1) cs

/-- Raw structural events produced by the reader, following the spec §3
`Event` model.  Tag names are kept raw (prefix included); attribute values
keep their original escaping. -/
inductive RawEvent where
  | start (name : String) (attrs : List (String × String))
  | empty (name : String) (attrs : List (String × String))
  | endTag (name : String)
  | text (s : String)
  | comment (s : String)
  | cdata (s : String)
  | pi (s : String)
  | doctype (s : String)
  | decl (ps : List (String × String))
  | eof
deriving DecidableEq, Repr

/-- One delimited span as classified by the scanner: every `RawEvent` case
except `eof`, which the scanner appends only at end of input. -/
inductive Span where
  | start (name : String) (attrs : List (String × String))
  | empty (name : String) (attrs : List (String × String))
  | endTag (name : String)
  | text (s : String)
  | comment (s : String)
  | cdata (s : String)
  | pi (s : String)
  | doctype (s : String)
  | decl (ps : List (String × String))
deriving DecidableEq, Repr

/-- Inject a classified span into the event type. -/
def Span.toEvent : Span → RawEvent
  | .start n a => .start n a
  | .empty n a => .empty n a
  | .endTag n => .endTag n
  | .text s => .text s
  | .comment s => .comment s
  | .cdata s => .cdata s
  | .pi s => .pi s
  | .doctype s => .doctype s
  | .decl ps => .decl ps

/-- Modelled from the spec (§4.1 Byte Scanner and §4.2 Event Classifier;
missing library code): scan and classify one delimited unit at the head of a
nonempty input, returning the span and the remaining input.  Comments,
CDATA, processing instructions and doctypes use their multi-character
terminators; `<?xml ...?>` is classified as a declaration with its
pseudo-attributes parsed; start/empty tags are terminated at the first `>`
outside a quoted attribute value, with a trailing `/` marking an empty
tag. -/
def scanOne : List Char → Except XmlError (Span × List Char)
  | [] => .error .unexpectedEof
  | '<' :: rest =>
    if lStartsWith (("!--").data) rest then
      match splitAfter (("-->").data) (rest.drop 3) with
      | some (content, rem) => .ok (.comment (String.mk content), rem)
      | none => .error .unexpectedEof
    else if lStartsWith (("![CDATA[").data) rest then
      match splitAfter (("]]>").data) (rest.drop 8) with
      | some (content, rem) => .ok (.cdata (String.mk content), rem)
      | none => .error .unexpectedEof
    else if lStartsWith (("!DOCTYPE").data) rest then
      match takeDoctype 0 (rest.drop 8) with
      | .ok (content, rem) => .ok (.doctype (String.mk content), rem)
      | .error e => .error e
    else if lStartsWith ['?'] rest then
      match splitAfter (("?>").data) (rest.drop 1) with
      | some (content, rem) =>
        if lStartsWith (("xml").data) content
            && ((content.drop 3).isEmpty || isWs ((content.drop 3).headD ' ')) then
          match parseAttrsAll (content.drop 3) with
          | .ok ps => .ok (.decl ps, rem)
          | .error e => .error e
        else .ok (.pi (String.mk content), rem)
      | none => .error .unexpectedEof
    else if lStartsWith ['/'] rest then
      match splitAfter ['>'] (rest.drop 1) with
      | some (content, rem) =>
        .ok (.endTag (String.mk (content.takeWhile (fun c => !(isWs c)))), rem)
      | none => .error .unexpectedEof
    else
      match takeTag none rest with
      | .error e => .error e
      | .ok (content, rem) =>
        let stripped : List Char × Bool :=
          match content.reverse with
          | '/' :: r => (r.reverse, true)
          | _ => (content, false)
        let name := stripped.1.takeWhile (fun c => !(isWs c))
        if name.isEmpty then .error .malformedMarkup
        else
          match parseAttrsAll (stripped.1.drop name.length) with
          | .ok attrs =>
            if stripped.2 then .ok (.empty (String.mk name) attrs, rem)
            else .ok (.start (String.mk name) attrs, rem)
          | .error e => .error e
  | c :: cs =>
    let txt := (c :: cs).takeWhile (fun x => x != '<')
    .ok (.text (String.mk txt), (c :: cs).drop txt.length)

/-- Modelled from the spec (§4.1, §6 Pull operation; missing library code):
scan the whole input into its event sequence, appending the single
terminating `eof`.  Fuel-bounded; one unit per produced event. -/
def scan : Nat → List Char → Except XmlError (List RawEvent)
  | _, [] => .ok [RawEvent.eof]
  | 0, _ :: _ => .error .fuelExhausted
  | f + 1, c :: cs =>
    match scanOne (c :: cs) with
    | .error e => .error e
    | .ok (sp, rest) =>
      match scan f rest with
      | .error e => .error e
      | .ok evs => .ok (sp.toEvent :: evs)

/-- Scan a whole input; every produced event consumes at least one input
character, so `length + 1` units of fuel suffice. -/
def scanAll (cs : List Char) : Except XmlError (List RawEvent) :=
  scan (cs.length + 1) cs

/-- Decimal digit value. -/
def digitVal? (c : Char) : Option Nat :=
  if 48 ≤ c.toNat && c.toNat ≤ 57 then some (c.toNat - 48) else none

/-- Hexadecimal digit value. -/
def hexVal? (c : Char) : Option Nat :=
  if 48 ≤ c.toNat && c.toNat ≤ 57 then some (c.toNat - 48)
  else if 97 ≤ c.toNat && c.toNat ≤ 102 then some (c.toNat - 87)
  else if 65 ≤ c.toNat && c.toNat ≤ 70 then some (c.toNat - 55)
  else none

/-- Fold a digit list into a number with the given base and per-digit
reader; any bad digit rejects the whole list. -/
def natFromDigitsAux (base : Nat) (dv : Char → Option Nat) : Nat → List Char → Option Nat
  | acc, [] => some acc
  | acc, c :: cs =>
    match dv c with
    | some d => natFromDigitsAux base dv (acc * base + d) cs
    | none => none

/-- Decimal numeric character reference body. -/
def natFromDigits (ds : List Char) : Option Nat :=
  if ds.isEmpty then none else natFromDigitsAux 10 digitVal? 0 ds

/-- Hexadecimal numeric character reference body. -/
def natFromHex (ds : List Char) : Option Nat :=
  if ds.isEmpty then none else natFromDigitsAux 16 hexVal? 0 ds

/-- A numeric character reference must denote a valid scalar value;
otherwise the decoded bytes would not be valid UTF-8. -/
def charFromCode (n : Nat) : Except XmlError Char :=
  if n.isValidChar then .ok (Char.ofNat n) else .error .invalidUtf8

/-- The five predefined XML entity names. -/
def entityLookup (name : List Char) : Option Char :=
  if name = ("amp").data then some '&'
  else if name = ("lt").data then some '<'
  else if name = ("gt").data then some '>'
  else if name = ("apos").data then some quoteS
  else if name = ("quot").data then some quoteD
  else none

/-- Modelled from the spec (§4.5 Text/Entity Decoder; missing library code):
resolve one entity body (the characters between `&` and `;`). -/
def decodeEntity : List Char → Except XmlError Char
  | '#' :: 'x' :: hs =>
    match natFromHex hs with
    | some n => charFromCode n
    | none => .error .unknownEntity
  | '#' :: ds =>
    match natFromDigits ds with
    | some n => charFromCode n
    | none => .error .unknownEntity
  | name =>
    match entityLookup name with
    | some c => .ok c
    | none => .error .unknownEntity

/-- Modelled from the spec (§4.5; missing library code): decode an escaped
span, replacing each `&...;` reference by its character; an unknown named
entity is `UnknownEntity`.  Fuel-bounded; one unit per consumed character
suffices. -/
def decodeEntities : Nat → List Char → Except XmlError (List Char)
  | _, [] => .ok []
  | 0, _ :: _ => .error .fuelExhausted
  | f + 1, '&' :: rest =>
    match splitAfter [';'] rest with
    | none => .error .unknownEntity
    | some (name, rem) =>
      match decodeEntity name with
      | .ok c => (fun l => c :: l) <$> decodeEntities f rem
      | .error e => .error e
  | f + 1, c :: rest => (fun l => c :: l) <$> decodeEntities f rest

/-- Decode a whole span with sufficient fuel. -/
def decodeAll (cs : List Char) : Except XmlError (List Char) :=
  decodeEntities (cs.length + 1) cs

/-- Modelled from the spec (§8; test-fixture reference encoder, not in the
source): escape one character, replacing each of the five special characters
by its predefined entity. -/
def escChar (c : Char) : List Char :=
  if c = '&' then ("&amp;").data
  else if c = '<' then ("&lt;").data
  else if c = '>' then ("&gt;").data
  else if c = quoteS then ("&apos;").data
  else if c = quoteD then ("&quot;").data
  else [c]

/-- Modelled from the spec (§8): the reference encoder. -/
def escapeRef : List Char → List Char
  | [] => []
  | c :: r => escChar c ++ escapeRef r

/-- Split a qualified tag name at its last colon into an optional raw
namespace qualifier and the local name (spec §3, `TagView`). -/
def splitQName (s : String) : Option String × String :=
  let cs := s.data
  let loc := (cs.reverse.takeWhile (fun c => c != ':')).reverse
  if loc.length = cs.length then (none, s)
  else (some (String.mk (cs.take (cs.length - loc.length - 1))), String.mk loc)

/-- The local name of a tag: the characters after the last colon. -/
def localName (s : String) : String := (splitQName s).2

/-- Modelled from the spec (§4.3 Namespace Resolver; missing library code):
collect the `xmlns`/`xmlns:q` attribute declarations of one tag into a new
scope, mapping the empty qualifier to the default namespace. -/
def xmlnsBindings (attrs : List (String × String)) : List (String × String) :=
  attrs.filterMap fun kv =>
    if kv.1 = ("xmlns") then some (("" : String), kv.2)
    else if lStartsWith (("xmlns:").data) kv.1.data then
      some (String.mk (kv.1.data.drop 6), kv.2)
    else none

/-- Modelled from the spec (§4.3; missing library code): look a qualifier up
across the scope stack, innermost scope first. -/
def nsLookup (p : String) : List (List (String × String)) → Option String
  | [] => none
  | sc :: rest =>
    match sc.lookup p with
    | some u => some u
    | none => nsLookup p rest

/-- Modelled from the spec (§4.3; missing library code): the effective
namespace URI of a tag name given the scope stack; an unqualified name uses
the default namespace; an unbound qualifier resolves to `none`. -/
def resolveNs (name : String) (scopes : List (List (String × String))) : Option String :=
  match splitQName name with
  | (none, _) => nsLookup ("") scopes
  | (some p, _) => nsLookup p scopes

/-- Reader/consumer state threaded through the pull loop: the `depth`
counter of `parse`, the open-tag-name stack and the namespace scope stack of
the reader (spec §3, `ReaderState`). -/
structure LoopState where
  depth : Nat
  openTags : List String
  scopes : List (List (String × String))
deriving DecidableEq, Repr

/-- The initial state of `parse`. -/
def initState : LoopState := ⟨0, [], []⟩

/-- One printed line of the consumer, abstracting `println!`: tag lines with
optional namespace and depth, attribute lines, text lines, and the
declaration header and field lines. -/
inductive Report where
  | tag (title : String) (name : String) (ns : Option String) (depth : Nat)
  | attr (key : String) (value : String) (depth : Nat)
  | text (title : String) (value : String) (depth : Nat)
  | declLine (depth : Nat)
  | declField (field : String) (value : String) (depth : Nat)
deriving DecidableEq, Repr

/-- `version()` accessor of a declaration event (spec §4.2): the `version`
pseudo-attribute is mandatory, so its absence is an error. -/
def declVersion (ps : List (String × String)) : Except XmlError String :=
  match ps.lookup ("version") with
  | some v => .ok v
  | none => .error .missingVersion

/-- `encoding()` accessor of a declaration event (spec §4.2): optional, and
independently fallible.  In this character-level model the inner decode
always succeeds. -/
def declEncoding (ps : List (String × String)) : Option (Except XmlError String) :=
  (ps.lookup ("encoding")).map .ok

/-- `standalone()` accessor of a declaration event (spec §4.2). -/
def declStandalone (ps : List (String × String)) : Option (Except XmlError String) :=
  (ps.lookup ("standalone")).map .ok

/-- The `Event::Decl` branch of `parse` (source lines 83-101): print the
`Declaration` header, then each of `version`, `encoding`, `standalone` only
when its accessor succeeds (`if let Ok(v)` / `if let Some(Ok(v))`), silently
omitting a field whose accessor fails. -/
def declReports (ps : List (String × String)) (depth : Nat) : List Report :=
  Report.declLine depth ::
    ((match declVersion ps with
      | .ok v => [Report.declField ("version") v depth]
      | .error _ => []) ++
     (match declEncoding ps with
      | some (.ok v) => [Report.declField ("encoding") v depth]
      | _ => []) ++
     (match declStandalone ps with
      | some (.ok v) => [Report.declField ("standalone") v depth]
      | _ => []))

/-- `print_attributes` (source lines 129-139) combined with the attribute
cursor's incremental duplicate detection (spec §4.4): walk the attribute
pairs left to right; a key already seen is `DuplicateAttribute`; otherwise
the value is unescaped (`unescape_and_decode_value`) and printed at
`depth + 1`.  Returns the lines printed before any failure together with the
failure, mirroring the `?` propagation in the source. -/
def printAttributes (seen : List String) (depth : Nat) :
    List (String × String) → List Report × Option XmlError
  | [] => ([], none)
  | (k, v) :: rest =>
    if seen.contains k then ([], some .duplicateAttribute)
    else
      match decodeAll v.data with
      | .error e => ([], some e)
      | .ok dv =>
        let out := printAttributes (k :: seen) depth rest
        (Report.attr k (String.mk dv) (depth + 1) :: out.1, out.2)

/-- Result of handling one pulled event: either continue the loop with new
state, or halt (on the terminating `EndOfInput` with no error, or on a fatal
error), in both cases carrying the lines printed by this step. -/
inductive StepRes where
  | cont (rs : List Report) (st : LoopState)
  | halt (rs : List Report) (err : Option XmlError)
deriving DecidableEq, Repr

/-- Decode-and-print for text-like events (`print_text`, source lines
141-146). -/
def textStep (title : String) (s : String) (st : LoopState) : StepRes :=
  match decodeAll s.data with
  | .error e => .halt [] (some e)
  | .ok v => .cont [Report.text title (String.mk v) st.depth] st

/-- One iteration of the pull loop of `parse` (source lines 56-106), with
the reader-side namespace resolution and well-formedness tracking modelled
from the spec (§4.3, §4.6; missing library code):

* `Start`: register the tag's own `xmlns` declarations, resolve the tag's
  namespace against the extended scope stack, print the tag at the current
  depth and its attributes at `depth + 1`, push the raw tag name, increment
  the depth.
* `Empty`: as `Start`, but the pushed scope is not retained and the depth is
  unchanged.
* `End`: the popped open-tag name must equal the end tag's name, else
  `MismatchedEndTag`; the depth is decremented before the tag is printed and
  the innermost scope is popped.
* text-like events are unescaped and printed.
* `Decl` prints the declaration fields, omitting failed accessors.
* `eof` terminates the loop; a non-empty open-tag stack at that point is
  `UnclosedElement`. -/
def stepEvent (st : LoopState) : RawEvent → StepRes
  | .start name attrs =>
    let scopes := xmlnsBindings attrs :: st.scopes
    let tagR := Report.tag ("Start") (localName name) (resolveNs name scopes) st.depth
    let aout := printAttributes [] st.depth attrs
    match aout.2 with
    | some e => .halt (tagR :: aout.1) (some e)
    | none => .cont (tagR :: aout.1) ⟨st.depth + 1, name :: st.openTags, scopes⟩
  | .empty name attrs =>
    let scopes := xmlnsBindings attrs :: st.scopes
    let tagR := Report.tag ("Empty") (localName name) (resolveNs name scopes) st.depth
    let aout := printAttributes [] st.depth attrs
    match aout.2 with
    | some e => .halt (tagR :: aout.1) (some e)
    | none => .cont (tagR :: aout.1) st
  | .endTag name =>
    match st.openTags with
    | [] => .halt [] (some .mismatchedEndTag)
    | t :: rest =>
      if t = name then
        let d := st.depth - 1
        .cont [Report.tag ("End") (localName name) (resolveNs name st.scopes) d]
          ⟨d, rest, st.scopes.drop 1⟩
      else .halt [] (some .mismatchedEndTag)
  | .text s => textStep ("  Text") s st
  | .comment s => textStep ("Comment") s st
  | .cdata s => textStep ("CDATA") s st
  | .pi s => textStep ("Processing Instruction") s st
  | .doctype s => textStep ("Document Type") s st
  | .decl ps => .cont (declReports ps st.depth) st
  | .eof =>
    if st.openTags.isEmpty then .halt [] none
    else .halt [] (some .unclosedElement)

/-- Run the pull loop of `parse` over an event sequence: accumulate printed
lines until a step halts, returning the lines, the terminal error (if any)
and the state at the halt. -/
def processEvents (st : LoopState) : List RawEvent → List Report × Option XmlError × LoopState
  | [] => ([], none, st)
  | ev :: rest =>
    match stepEvent st ev with
    | .halt rs e => (rs, e, st)
    | .cont rs st2 =>
      let out := processEvents st2 rest
      (rs ++ out.1, out.2.1, out.2.2)

/-- The whole observable behaviour of `parse` on an input: scan it into
events and run the consuming loop from the initial state. -/
def runXml (cs : List Char) : List Report × Option XmlError :=
  match scanAll cs with
  | .error e => ([], some e)
  | .ok evs =>
    let out := processEvents initState evs
    (out.1, out.2.1)

/-- Overall outcome of the program on one input: normal completion, an error
returned to `main`, or a panic (Rust `unwrap` on an `Err`). -/
inductive Outcome where
  | ok
  | err (e : XmlError)
  | panicked
deriving DecidableEq, Repr

/-- The opening step and pull loop of `parse` (source lines 46-110): the
result of `File::open` is `unwrap`ped, so an unopenable source panics the
program instead of surfacing an error value; on a successfully opened source
the pull loop runs over the file's contents. -/
def parseProgram (openResult : Except XmlError (List Char)) : List Report × Outcome :=
  match openResult with
  | .error _ => ([], .panicked)
  | .ok cs =>
    match runXml cs with
    | (rs, none) => (rs, .ok)
    | (rs, some e) => (rs, .err e)

/-- Number of `eof` events in a sequence. -/
def countEof : List RawEvent → Nat
  | [] => 0
  | RawEvent.eof :: r => countEof r + 1
  | _ :: r => countEof r

/-- The five characters requiring the predefined XML entities. -/
def fiveSpecials : List Char := ['&', '<', '>', quoteS, quoteD]

/-- A classified span is never the `eof` sentinel. -/
theorem span_toEvent_ne_eof (sp : Span) : sp.toEvent ≠ RawEvent.eof := by
  cases sp <;> simp [Span.toEvent]

/-- Prepending a non-`eof` event leaves the `eof` count unchanged. -/
theorem countEof_cons_ne (ev : RawEvent) (l : List RawEvent) (h : ev ≠ RawEvent.eof) :
    countEof (ev :: l) = countEof l := by
  cases ev <;> first | exact absurd rfl h | rfl

/-- Every successful scan yields exactly one `eof`, in final position. -/
theorem scan_ok_shape :
    ∀ (f : Nat) (cs : List Char) (evs : List RawEvent), scan f cs = .ok evs →
      countEof evs = 1 ∧ evs.getLast? = some RawEvent.eof := by
  intro f
  induction f with
  | zero =>
    intro cs evs h
    cases cs with
    | nil =>
      simp only [scan] at h
      cases h
      exact ⟨rfl, rfl⟩
    | cons c cs => simp [scan] at h
  | succ f ih =>
    intro cs evs h
    cases cs with
    | nil =>
      simp only [scan] at h
      cases h
      exact ⟨rfl, rfl⟩
    | cons c cs =>
      simp only [scan] at h
      cases hso : scanOne (c :: cs) with
      | error e => simp only [hso] at h; simp at h
      | ok pr =>
        obtain ⟨sp, rest⟩ := pr
        simp only [hso] at h
        cases hsc : scan f rest with
        | error e => simp only [hsc] at h; simp at h
        | ok evs2 =>
          simp only [hsc] at h
          cases h
          obtain ⟨h1, h2⟩ := ih rest evs2 hsc
          refine ⟨?_, ?_⟩
          · rw [countEof_cons_ne _ _ (span_toEvent_ne_eof sp), h1]
          · cases evs2 with
            | nil => simp at h2
            | cons e2 l2 => simpa [List.getLast?_cons_cons] using h2

/-- The consuming loop never looks past the first `eof` of the sequence. -/
theorem processEvents_stops_at_eof :
    ∀ (pre : List RawEvent) (st : LoopState) (rest : List RawEvent),
      processEvents st (pre ++ RawEvent.eof :: rest) =
        processEvents st (pre ++ [RawEvent.eof]) := by
  intro pre
  induction pre with
  | nil =>
    intro st rest
    cases h : st.openTags.isEmpty <;>
      simp [processEvents, stepEvent, h]
  | cons ev pre ih =>
    intro st rest
    simp only [List.cons_append, processEvents]
    rcases h : stepEvent st ev with ⟨rs, st2⟩ | ⟨rs, e⟩
    · simp only [h, List.append_eq, ih st2 rest]
    · simp only [h]

/-- Escaping never shortens a string. -/
theorem escChar_length_pos (c : Char) : 1 ≤ (escChar c).length := by
  unfold escChar
  split_ifs <;> first | decide | simp

/-- Escaping never shortens a string (whole-list form). -/
theorem escapeRef_length (s : List Char) : s.length ≤ (escapeRef s).length := by
  induction s with
  | nil => simp [escapeRef]
  | cons c r ih =>
    simp only [escapeRef, List.length_append, List.length_cons]
    have := escChar_length_pos c
    omega

/-- Decoding step for an `&amp;` reference. -/
theorem decodeStep_amp (f : Nat) (t : List Char) :
    decodeEntities (f + 1) ('&' :: 'a' :: 'm' :: 'p' :: ';' :: t) =
      (fun l => '&' :: l) <$> decodeEntities f t := rfl

/-- Decoding step for an `&lt;` reference. -/
theorem decodeStep_lt (f : Nat) (t : List Char) :
    decodeEntities (f + 1) ('&' :: 'l' :: 't' :: ';' :: t) =
      (fun l => '<' :: l) <$> decodeEntities f t := rfl

/-- Decoding step for an `&gt;` reference. -/
theorem decodeStep_gt (f : Nat) (t : List Char) :
    decodeEntities (f + 1) ('&' :: 'g' :: 't' :: ';' :: t) =
      (fun l => '>' :: l) <$> decodeEntities f t := rfl

/-- Decoding step for an `&apos;` reference. -/
theorem decodeStep_apos (f : Nat) (t : List Char) :
    decodeEntities (f + 1) ('&' :: 'a' :: 'p' :: 'o' :: 's' :: ';' :: t) =
      (fun l => quoteS :: l) <$> decodeEntities f t := rfl

/-- Decoding step for an `&quot;` reference. -/
theorem decodeStep_quot (f : Nat) (t : List Char) :
    decodeEntities (f + 1) ('&' :: 'q' :: 'u' :: 'o' :: 't' :: ';' :: t) =
      (fun l => quoteD :: l) <$> decodeEntities f t := rfl

/-- Round-trip of the reference encoder through the decoder, fuel-explicit:
decoding the escaped form of a string of special characters returns the
original string. -/
theorem decode_escape_aux :
    ∀ (s : List Char) (f : Nat), s.length ≤ f →
      (∀ c ∈ s, c ∈ fiveSpecials) →
      decodeEntities f (escapeRef s) = .ok s := by
  intro s
  induction s with
  | nil =>
    intro f _ _
    cases f <;> rfl
  | cons c r ih =>
    intro f hlen hmem
    cases f with
    | zero => simp at hlen
    | succ f2 =>
      have hc : c ∈ fiveSpecials := hmem c (List.mem_cons_self c r)
      have hr : ∀ x ∈ r, x ∈ fiveSpecials := fun x hx => hmem x (List.mem_cons_of_mem c hx)
      have hlen2 : r.length ≤ f2 := Nat.succ_le_succ_iff.mp (by simpa using hlen)
      have hcases : c = '&' ∨ c = '<' ∨ c = '>' ∨ c = quoteS ∨ c = quoteD := by
        simpa [fiveSpecials] using hc
      rcases hcases with rfl | rfl | rfl | rfl | rfl
      · show decodeEntities (f2 + 1) ('&' :: 'a' :: 'm' :: 'p' :: ';' :: escapeRef r) = _
        rw [decodeStep_amp, ih f2 hlen2 hr]
        rfl
      · show decodeEntities (f2 + 1) ('&' :: 'l' :: 't' :: ';' :: escapeRef r) = _
        rw [decodeStep_lt, ih f2 hlen2 hr]
        rfl
      · show decodeEntities (f2 + 1) ('&' :: 'g' :: 't' :: ';' :: escapeRef r) = _
        rw [decodeStep_gt, ih f2 hlen2 hr]
        rfl
      · show decodeEntities (f2 + 1) ('&' :: 'a' :: 'p' :: 'o' :: 's' :: ';' :: escapeRef r) = _
        rw [decodeStep_apos, ih f2 hlen2 hr]
        rfl
      · show decodeEntities (f2 + 1) ('&' :: 'q' :: 'u' :: 'o' :: 't' :: ';' :: escapeRef r) = _
        rw [decodeStep_quot, ih f2 hlen2 hr]
        rfl

/-- C1: on `<a><b><c/></b></a>` the events are reported in the order
Start(a), Start(b), Empty(c), End(b), End(a) at depths 0, 1, 2, 1, 0; and in
general the loop increments the depth after reporting a `Start`, leaves it
unchanged by an `Empty`, and decrements it before reporting an `End`. -/
theorem c1_depth_report_order :
    runXml (("<a><b><c/></b></a>").data) =
      ([Report.tag ("Start") ("a") none 0,
        Report.tag ("Start") ("b") none 1,
        Report.tag ("Empty") ("c") none 2,
        Report.tag ("End") ("b") none 1,
        Report.tag ("End") ("a") none 0], none) ∧
    (∀ (st : LoopState) (n : String) (a : List (String × String)) rs st2,
        stepEvent st (RawEvent.start n a) = .cont rs st2 →
          st2.depth = st.depth + 1) ∧
    (∀ (st : LoopState) (n : String) (a : List (String × String)) rs st2,
        stepEvent st (RawEvent.empty n a) = .cont rs st2 → st2 = st) ∧
    (∀ (st : LoopState) (n : String) rs st2,
        stepEvent st (RawEvent.endTag n) = .cont rs st2 →
          st2.depth = st.depth - 1 ∧
          rs = [Report.tag ("End") (localName n) (resolveNs n st.scopes) (st.depth - 1)]) := by
  refine ⟨by rfl, ?_, ?_, ?_⟩
  · intro st n a rs st2 h
    simp only [stepEvent] at h
    rcases hp : (printAttributes [] st.depth a).2 with _ | e
    · simp only [hp] at h
      cases h
      rfl
    · simp only [hp] at h
      exact StepRes.noConfusion h
  · intro st n a rs st2 h
    simp only [stepEvent] at h
    rcases hp : (printAttributes [] st.depth a).2 with _ | e
    · simp only [hp] at h
      cases h
      rfl
    · simp only [hp] at h
      exact StepRes.noConfusion h
  · intro st n rs st2 h
    simp only [stepEvent] at h
    rcases ho : st.openTags with _ | ⟨t, rest2⟩
    · simp only [ho] at h
      exact StepRes.noConfusion h
    · simp only [ho] at h
      by_cases ht : t = n
      · simp only [ht, if_pos] at h
        cases h
        exact ⟨rfl, rfl⟩
      · simp only [if_neg ht] at h
        exact StepRes.noConfusion h

/-- C1 witness: the general conjuncts applied at concrete steps of the
`<a><b><c/></b></a>` run. -/
theorem c1_witness :
    (⟨1, [("a" : String)], [[]]⟩ : LoopState).depth = initState.depth + 1 ∧
    (⟨2, [("b" : String), ("a")], [[], []]⟩ : LoopState) =
      (⟨2, [("b" : String), ("a")], [[], []]⟩ : LoopState) ∧
    ((⟨1, [("a" : String)], [[]]⟩ : LoopState).depth =
        (⟨2, [("b" : String), ("a")], [[], []]⟩ : LoopState).depth - 1 ∧
      [Report.tag ("End") ("b") none 1] =
        [Report.tag ("End") (localName ("b"))
          (resolveNs ("b") (⟨2, [("b" : String), ("a")], [[], []]⟩ : LoopState).scopes)
          ((⟨2, [("b" : String), ("a")], [[], []]⟩ : LoopState).depth - 1)]) :=
  ⟨c1_depth_report_order.2.1 initState ("a") []
      [Report.tag ("Start") ("a") none 0] ⟨1, [("a")], [[]]⟩ rfl,
   c1_depth_report_order.2.2.1 ⟨2, [("b"), ("a")], [[], []]⟩ ("c") []
      [Report.tag ("Empty") ("c") none 2] ⟨2, [("b"), ("a")], [[], []]⟩ rfl,
   c1_depth_report_order.2.2.2 ⟨2, [("b"), ("a")], [[], []]⟩ ("b")
      [Report.tag ("End") ("b") none 1] ⟨1, [("a")], [[]]⟩ rfl⟩

/-- C2: every successful scan produces exactly one `EndOfInput`, as the
final value, and the consuming loop never consumes anything after the first
`EndOfInput` of the sequence. -/
theorem c2_single_eof_terminates :
    (∀ (cs : List Char) (evs : List RawEvent), scanAll cs = .ok evs →
        countEof evs = 1 ∧ evs.getLast? = some RawEvent.eof) ∧
    (∀ (pre : List RawEvent) (st : LoopState) (rest : List RawEvent),
        processEvents st (pre ++ RawEvent.eof :: rest) =
          processEvents st (pre ++ [RawEvent.eof])) :=
  ⟨fun cs evs h => scan_ok_shape (cs.length + 1) cs evs h, processEvents_stops_at_eof⟩

/-- C2 witness: the scan shape at `<a/>`, and loop truncation at a concrete
sequence with events after `eof`. -/
theorem c2_witness :
    (countEof [RawEvent.empty ("a") [], RawEvent.eof] = 1 ∧
      ([RawEvent.empty ("a") [], RawEvent.eof]).getLast? = some RawEvent.eof) ∧
    processEvents initState ([] ++ RawEvent.eof :: [RawEvent.empty ("b") []]) =
      processEvents initState ([] ++ [RawEvent.eof]) :=
  ⟨c2_single_eof_terminates.1 (("<a/>").data) [RawEvent.empty ("a") [], RawEvent.eof] rfl,
   c2_single_eof_terminates.2 [] initState [RawEvent.empty ("b") []]⟩

/-- C3: decoding the escaped form of any string containing only the five
characters requiring predefined entities returns the original string. -/
theorem c3_decode_escape_roundtrip :
    ∀ s : List Char, (∀ c ∈ s, c ∈ fiveSpecials) →
      decodeAll (escapeRef s) = .ok s := by
  intro s hmem
  exact decode_escape_aux s ((escapeRef s).length + 1)
    (le_trans (escapeRef_length s) (Nat.le_succ _)) hmem

/-- C3 witness: the round trip at the concrete string `<&>`. -/
theorem c3_witness :
    decodeAll (escapeRef ['<', '&', '>']) = .ok ['<', '&', '>'] :=
  c3_decode_escape_roundtrip ['<', '&', '>'] (by decide)

/-- C4: on `<a:x xmlns:a="urn:a"><a:y/></a:x>` the inner tag `a:y` resolves
to the URI `urn:a` through the binding declared on the enclosing start tag
(attributes-first-then-name), and after the matching `</a:x>` is consumed
the namespace scope stack (and open-tag stack) is empty. -/
theorem c4_namespace_resolution :
    scanAll (("<a:x xmlns:a=\"urn:a\"><a:y/></a:x>").data) =
      .ok [RawEvent.start ("a:x") [(("xmlns:a"), ("urn:a"))],
           RawEvent.empty ("a:y") [], RawEvent.endTag ("a:x"), RawEvent.eof] ∧
    (runXml (("<a:x xmlns:a=\"urn:a\"><a:y/></a:x>").data)).1 =
      [Report.tag ("Start") ("x") (some ("urn:a")) 0,
       Report.attr ("xmlns:a") ("urn:a") 1,
       Report.tag ("Empty") ("y") (some ("urn:a")) 1,
       Report.tag ("End") ("x") (some ("urn:a")) 0] ∧
    processEvents initState
        [RawEvent.start ("a:x") [(("xmlns:a"), ("urn:a"))],
         RawEvent.empty ("a:y") [], RawEvent.endTag ("a:x")] =
      ([Report.tag ("Start") ("x") (some ("urn:a")) 0,
        Report.attr ("xmlns:a") ("urn:a") 1,
        Report.tag ("Empty") ("y") (some ("urn:a")) 1,
        Report.tag ("End") ("x") (some ("urn:a")) 0], none, initState) :=
  ⟨rfl, rfl, rfl⟩

/-- C5: on `<a b="1" b="2"/>` enumerating the attributes of the `Empty` tag
yields `DuplicateAttribute`: the first occurrence of `b` is enumerated, the
repeated key is reported as the error terminating the run. -/
theorem c5_duplicate_attribute :
    runXml (("<a b=\"1\" b=\"2\"/>").data) =
      ([Report.tag ("Empty") ("a") none 0, Report.attr ("b") ("1") 1],
       some XmlError.duplicateAttribute) ∧
    (printAttributes [] 0 [(("b"), ("1")), (("b"), ("2"))]).2 =
      some XmlError.duplicateAttribute :=
  ⟨rfl, rfl⟩

/-- C6: on `<a><b></a>` the pull loop yields `MismatchedEndTag` when the end
tag `</a>` is processed, because the innermost open tag name `b` does not
match; the two start tags are reported and the loop stops there. -/
theorem c6_mismatched_end_tag :
    runXml (("<a><b></a>").data) =
      ([Report.tag ("Start") ("a") none 0, Report.tag ("Start") ("b") none 1],
       some XmlError.mismatchedEndTag) := rfl

/-- C7: the `version` accessor of a declaration succeeds exactly when the
`version` pseudo-attribute is present; `encoding` and `standalone` each
return an optional result; the accessors are independent (`version` is
unaffected by the `encoding`/`standalone` entries, so a failing sibling
cannot block it); and on `<?xml version="1.0" encoding="UTF-8"
standalone="yes"?>` the three accessors return `"1.0"`, `Some(Ok("UTF-8"))`
and `Some(Ok("yes"))`. -/
theorem c7_declaration_accessors :
    (∀ ps : List (String × String),
        (declVersion ps).isOk = (ps.lookup ("version")).isSome) ∧
    (∀ (ps : List (String × String)) (v : String),
        declVersion ((("encoding"), v) :: ps) = declVersion ps ∧
        declVersion ((("standalone"), v) :: ps) = declVersion ps) ∧
    scanAll (("<?xml version=\"1.0\" encoding=\"UTF-8\" standalone=\"yes\"?>").data) =
      .ok [RawEvent.decl [(("version"), ("1.0")), (("encoding"), ("UTF-8")),
            (("standalone"), ("yes"))], RawEvent.eof] ∧
    declVersion [(("version"), ("1.0")), (("encoding"), ("UTF-8")),
        (("standalone"), ("yes"))] = .ok ("1.0") ∧
    declEncoding [(("version"), ("1.0")), (("encoding"), ("UTF-8")),
        (("standalone"), ("yes"))] = some (.ok ("UTF-8")) ∧
    declStandalone [(("version"), ("1.0")), (("encoding"), ("UTF-8")),
        (("standalone"), ("yes"))] = some (.ok ("yes")) := by
  refine ⟨?_, ?_, rfl, rfl, rfl, rfl⟩
  · intro ps
    unfold declVersion
    cases h : ps.lookup ("version") <;> simp [h, Except.isOk, Except.toBool]
  · intro ps v
    constructor <;> simp [declVersion, List.lookup]

/-- C8 counterexample: on a source that cannot be opened the program
panics (`File::open(path).unwrap()`), which is a distinct outcome from
returning an `IoError` to the caller as the claim states. -/
theorem c8_counterexample :
    parseProgram (.error XmlError.ioError) = ([], Outcome.panicked) ∧
    Outcome.panicked ≠ Outcome.err XmlError.ioError := ⟨rfl, by decide⟩

/-- C8 amended: for every source that cannot be opened, the program panics
(aborts) instead of returning any error value to the caller. -/
theorem c8_open_failure_panics :
    ∀ e : XmlError, parseProgram (.error e) = ([], Outcome.panicked) := fun _ => rfl

/-- C9 counterexample: on `<a v="&bad;"/><b/>` the reader produces the raw
events for both elements, but the consumer's decode failure on the first
attribute value terminates the run with `UnknownEntity` before the second
element is processed — contradicting the claim that the failure does not
terminate event production. -/
theorem c9_counterexample :
    scanAll (("<a v=\"&bad;\"/><b/>").data) =
      .ok [RawEvent.empty ("a") [(("v"), ("&bad;"))],
           RawEvent.empty ("b") [], RawEvent.eof] ∧
    runXml (("<a v=\"&bad;\"/><b/>").data) =
      ([Report.tag ("Empty") ("a") none 0], some XmlError.unknownEntity) :=
  ⟨rfl, rfl⟩

/-- C9 amended: a decode failure is scoped to the single decode call and
leaves the reader state unchanged — the loop halts returning the untouched
state, from which the remaining events still process normally — but this
consumer propagates the decode error and stops its loop. -/
theorem c9_decode_failure_scoped :
    (∀ (st : LoopState) (s : String) (rest : List RawEvent) (e : XmlError),
        decodeAll s.data = .error e →
        processEvents st (RawEvent.text s :: rest) = ([], some e, st)) ∧
    (∀ (st : LoopState) (name : String) (attrs : List (String × String))
        (rest : List RawEvent) (e : XmlError),
        (printAttributes [] st.depth attrs).2 = some e →
        processEvents st (RawEvent.empty name attrs :: rest) =
          ([Report.tag ("Empty") (localName name)
              (resolveNs name (xmlnsBindings attrs :: st.scopes)) st.depth] ++
            (printAttributes [] st.depth attrs).1,
           some e, st)) ∧
    processEvents initState [RawEvent.empty ("b") [], RawEvent.eof] =
      ([Report.tag ("Empty") ("b") none 0], none, initState) := by
  refine ⟨?_, ?_, rfl⟩
  · intro st s rest e h
    simp [processEvents, stepEvent, textStep, h]
  · intro st name attrs rest e h
    simp [processEvents, stepEvent, h]

/-- C9 witness: the scoped-failure conjuncts applied at concrete failing
decodes. -/
theorem c9_witness :
    processEvents initState [RawEvent.text ("&bad;"), RawEvent.eof] =
      ([], some XmlError.unknownEntity, initState) ∧
    processEvents initState
        [RawEvent.empty ("a") [(("v"), ("&bad;"))], RawEvent.eof] =
      ([Report.tag ("Empty") (localName ("a"))
          (resolveNs ("a") (xmlnsBindings [(("v"), ("&bad;"))] :: initState.scopes))
          initState.depth] ++
        (printAttributes [] initState.depth [(("v"), ("&bad;"))]).1,
       some XmlError.unknownEntity, initState) :=
  ⟨c9_decode_failure_scoped.1 initState ("&bad;") [RawEvent.eof]
      XmlError.unknownEntity rfl,
   c9_decode_failure_scoped.2.1 initState ("a") [(("v"), ("&bad;"))] [RawEvent.eof]
      XmlError.unknownEntity rfl⟩

/-- C10: when the `version` accessor of a declaration fails, the consumer
silently omits that field — no `version` line appears in the output — and
continues with the subsequent events without propagating any error from the
declaration branch. -/
theorem c10_decl_field_error_omitted :
    ∀ (ps : List (String × String)) (rest : List RawEvent) (st : LoopState)
      (e : XmlError),
      declVersion ps = .error e →
      processEvents st (RawEvent.decl ps :: rest) =
        (declReports ps st.depth ++ (processEvents st rest).1,
         (processEvents st rest).2.1, (processEvents st rest).2.2) ∧
      ∀ (v : String) (d : Nat),
        Report.declField ("version") v d ∉ declReports ps st.depth := by
  intro ps rest st e h
  refine ⟨by simp [processEvents, stepEvent], ?_⟩
  intro v d hmem
  simp only [declReports, h] at hmem
  rcases hE : declEncoding ps with _ | (eE | vE) <;>
    rcases hS : declStandalone ps with _ | (eS | vS) <;>
      simp [hE, hS] at hmem

/-- C10 witness: a declaration without `version` is printed without a
`version` line and the loop continues over the following events. -/
theorem c10_witness :
    processEvents initState
        [RawEvent.decl [(("encoding"), ("UTF-8"))], RawEvent.empty ("a") [],
         RawEvent.eof] =
      (declReports [(("encoding"), ("UTF-8"))] initState.depth ++
        (processEvents initState [RawEvent.empty ("a") [], RawEvent.eof]).1,
       (processEvents initState [RawEvent.empty ("a") [], RawEvent.eof]).2.1,
       (processEvents initState [RawEvent.empty ("a") [], RawEvent.eof]).2.2) ∧
    Report.declField ("version") ("1.0") 0 ∉
      declReports [(("encoding"), ("UTF-8"))] initState.depth :=
  ⟨(c10_decl_field_error_omitted [(("encoding"), ("UTF-8"))]
      [RawEvent.empty ("a") [], RawEvent.eof] initState XmlError.missingVersion rfl).1,
   (c10_decl_field_error_omitted [(("encoding"), ("UTF-8"))]
      [RawEvent.empty ("a") [], RawEvent.eof] initState XmlError.missingVersion rfl).2
     ("1.0") 0⟩
